import Mathlib

/-!
# Verification of the foreman-ansible-modules reconciliation front-ends

Shallow embedding of `plugins/modules/host.py` and
`plugins/modules/foreman_installation_medium.py`: the parameter dictionaries
are modelled as insertion-ordered association lists (matching Python `dict`
semantics), the module `main` functions are translated statement by
statement, and the remote API (provided by the out-of-scope helper library)
is an oracle supplied as input, with every remote call recorded in a trace.
-/

namespace Foreman

/-- A Python value as it appears in the module parameter dictionaries. -/
inductive Value where
  | vStr (s : String)
  | vBool (b : Bool)
  | vInt (n : Int)
  | vNone
  | vList (l : List Value)
  | vDict (d : List (String × Value))
  deriving Inhabited

/-- Python truthiness of a value (`if v:`): empty string, `False`, zero,
`None`, empty list and empty dict are falsy, everything else truthy. -/
def Value.truthy : Value → Bool
  | .vStr s => !s.isEmpty
  | .vBool b => b
  | .vInt n => n != 0
  | .vNone => false
  | .vList l => !l.isEmpty
  | .vDict d => !d.isEmpty

/-- A module parameter dictionary: insertion-ordered association list with
(unchecked) unique keys, like a Python `dict`. -/
abbrev Params := List (String × Value)

/-- First binding for `key`, like `d[key]` / `d.get(key)`. -/
def lookupKey : Params → String → Option Value
  | [], _ => none
  | (k, v) :: rest, key => if k = key then some v else lookupKey rest key

/-- `key in d`. -/
def hasKey (d : Params) (key : String) : Bool :=
  (lookupKey d key).isSome

/-- `d[key] = v`: replace in place when the key exists (keeping insertion
order), append otherwise. -/
def setKey : Params → String → Value → Params
  | [], key, v => [(key, v)]
  | (k, w) :: rest, key, v =>
    if k = key then (k, v) :: rest else (k, w) :: setKey rest key v

/-- `d.pop(key, None)`: drop the binding for `key`. -/
def eraseKey : Params → String → Params
  | [], _ => []
  | (k, v) :: rest, key =>
    if k = key then eraseKey rest key else (k, v) :: eraseKey rest key

/-- `list(d.keys())` in insertion order. -/
def keysOf (d : Params) : List String :=
  d.map Prod.fst

/-! ## The host module (`plugins/modules/host.py`)

`main` builds a `ForemanHostModule`, validates the parameters, normalizes
them when the desired state is not absent, and then, inside the API
connection scope, resolves entities, runs the primary reconciliation and
conditionally the puppetclass hook.  The helper library is out of scope;
its remote-facing steps (`auto_lookup_entities`, `module.run`,
`ensure_puppetclasses`) are oracles whose invocations are traced. -/

/-- The warning text emitted at host.py line 434. -/
def buildManagedWarning : String :=
  "when 'build'=True, 'managed' is ignored and forced to True"

/-- `d[key]` with a `None` default (the parameter dictionaries never map a
key to Python `None`: absent optional parameters are simply not present). -/
def itemOf (d : Params) (key : String) : Value :=
  (lookupKey d key).getD .vNone

/-- `v[key]` on a nested value that is a dict. -/
def itemOfV (v : Value) (key : String) : Value :=
  match v with
  | .vDict d => itemOf d key
  | _ => .vNone

/-- `key in d and d[key]` (membership plus truthiness of the value). -/
def getTruthy (d : Params) (key : String) : Bool :=
  match lookupKey d key with
  | some v => v.truthy
  | none => false

/-- host.py lines 431-438: the build/managed coupling.  Returns the updated
parameters together with the warnings emitted. -/
def normalizeBuildManaged (p : Params) : Params × List String :=
  if hasKey p "build" && getTruthy p "build" then
    let warns :=
      if hasKey p "managed" && !getTruthy p "managed" then [buildManagedWarning] else []
    (setKey p "managed" (.vBool true), warns)
  else if !hasKey p "build" && (hasKey p "managed" && !getTruthy p "managed") then
    (setKey p "build" (.vBool false), [])
  else
    (p, [])

/-- `s.lower()` on a string value (the `mac` parameter is a str). -/
def Value.lowerStr : Value → Value
  | .vStr s => .vStr s.toLower
  | v => v

/-- host.py lines 440-441: lower-case the `mac` parameter when present. -/
def normalizeMac (p : Params) : Params :=
  match lookupKey p "mac" with
  | some v => setKey p "mac" v.lowerStr
  | none => p

/-- host.py lines 443-446: derive the `owner_type` discriminator. -/
def normalizeOwnerType (p : Params) : Params :=
  if hasKey p "owner" then setKey p "owner_type" (.vStr "User")
  else if hasKey p "owner_group" then setKey p "owner_type" (.vStr "Usergroup")
  else p

/-- `{k: v for k, v in obj.items() if v}`: keep only truthy values. -/
def cleanNicDict (d : List (String × Value)) : List (String × Value) :=
  d.filter (fun kv => kv.2.truthy)

/-- The per-record comprehension applied to one interface record (the
argument parser guarantees every element of `interfaces_attributes` is a
dict). -/
def cleanNic : Value → Value
  | .vDict d => .vDict (cleanNicDict d)
  | v => v

/-- host.py line 449: `[nic for nic in ({...} for obj in ...) if nic]`. -/
def filterInterfaces : Value → Value
  | .vList objs => .vList ((objs.map cleanNic).filter Value.truthy)
  | v => v

/-- host.py lines 448-450: prune falsy keys from every interface record and
drop records that become empty. -/
def normalizeInterfaces (p : Params) : Params :=
  match lookupKey p "interfaces_attributes" with
  | some v => setKey p "interfaces_attributes" (filterInterfaces v)
  | none => p

/-- host.py lines 430-450: the whole `if not module.desired_absent:`
normalization block. -/
def hostNormalize (p : Params) : Params × List String :=
  let bm := normalizeBuildManaged p
  (normalizeInterfaces (normalizeOwnerType (normalizeMac bm.1)), bm.2)

/-- The remote-facing steps of host.py's `main` in source order. -/
inductive HostCall where
  | autoLookupEntities
  | run
  | ensurePuppetclasses
  deriving Repr, DecidableEq

/-- Terminal outcome of a host invocation. -/
inductive HostResult where
  | fatal (msg : String)
  | success
  deriving Repr, DecidableEq

/-- `module.desired_absent` (state == 'absent'). -/
def desiredAbsent (state : String) : Bool :=
  state == "absent"

/-- Modelled from the spec: the argument parser rejects input supplying
both fields of a declared mutually-exclusive pair (here
`[['owner', 'owner_group']]`, host.py lines 418-420) before any module
code runs. -/
def mutuallyExclusiveMsg : String :=
  "parameters are mutually exclusive: owner|owner_group"

/-- `'.' in s` for a character: membership in the string's characters. -/
def containsChar (s : String) (c : Char) : Bool :=
  s.data.contains c

/-- The required `name` parameter (a str, enforced by the argument
parser). -/
def strParam (p : Params) (key : String) : String :=
  match lookupKey p key with
  | some (.vStr s) => s
  | _ => ""

/-- One host invocation: the parsed parameters, the desired state, and
oracles for the helper-library steps that talk to the remote service
(`auto_lookup_entities` and `module.run`; the latter returns the final
entity body, or `none` after a deletion, or fails). -/
structure HostInput where
  params : Params
  state : String
  lookupOutcome : Except String Unit
  runOutcome : Except String (Option Params)

/-- Observable outcome of a host invocation: result, accumulated warnings,
whether the API connection scope was entered, the trace of helper steps,
the parameters right after the normalization block, and the parameters
passed to `module.run`. -/
structure HostOutput where
  result : HostResult
  warnings : List String
  connectionAcquired : Bool
  calls : List HostCall
  paramsAfterNorm : Option Params
  paramsAtRun : Option Params

/-- host.py `main` (lines 365-458), after argument parsing. -/
def hostMain (inp : HostInput) : HostOutput :=
  if hasKey inp.params "owner" && hasKey inp.params "owner_group" then
    { result := .fatal mutuallyExclusiveMsg, warnings := [], connectionAcquired := false,
      calls := [], paramsAfterNorm := none, paramsAtRun := none }
  else
    let name := strParam inp.params "name"
    if !containsChar name '.' then
      { result := .fatal "The hostname must be FQDN", warnings := [], connectionAcquired := false,
        calls := [], paramsAfterNorm := none, paramsAtRun := none }
    else
      let absent := desiredAbsent inp.state
      let np := if absent then (inp.params, []) else hostNormalize inp.params
      match (if absent then Except.ok () else inp.lookupOutcome) with
      | .error e =>
        { result := .fatal e, warnings := np.2, connectionAcquired := true,
          calls := [.autoLookupEntities], paramsAfterNorm := some np.1, paramsAtRun := none }
      | .ok _ =>
        let preCalls : List HostCall := if absent then [] else [.autoLookupEntities]
        let pRun := eraseKey np.1 "puppetclasses"
        match inp.runOutcome with
        | .error e =>
          { result := .fatal e, warnings := np.2, connectionAcquired := true,
            calls := preCalls ++ [.run], paramsAfterNorm := some np.1, paramsAtRun := some pRun }
        | .ok entity =>
          let hook := !absent && (match entity with
            | some body => hasKey body "environment_id"
            | none => false)
          { result := .success, warnings := np.2, connectionAcquired := true,
            calls := preCalls ++ [.run] ++ (if hook then [.ensurePuppetclasses] else []),
            paramsAfterNorm := some np.1, paramsAtRun := some pRun }

/-! ## The installation medium module
(`plugins/modules/foreman_installation_medium.py`)

`main` validates the wildcard parameter combinations, locates the target
entity (or the bulk target set), resolves references, optionally derives
`os_family` from a single resolved operating system, and hands each target
to `ensure_entity`.  The helper library's remote calls (`list_resource`,
`show_resource`, `find_resource_by_name`, `resolve_entities`,
`ensure_entity`) are oracles whose invocations are traced. -/

/-- The remote-facing steps of foreman_installation_medium.py's `main` in
source order. -/
inductive MedCall where
  | listMedia
  | showMedium (id : Value)
  | findMedia (name : String)
  | showOperatingsystem (id : Value)
  | ensureEntity (ps : Params) (entity : Option Params)

/-- Terminal outcome of an installation-medium invocation.
`exitedNoChange` is the bare `module.exit_json()` at line 130; modelled
from the spec: an empty bulk target set "is a no-op success with no change
reported". -/
inductive MediumOutcome where
  | fatal (msg : String)
  | exitedNoChange
  | completed

/-- `module.params['updated_name']` is `None` or a str; its Python
truthiness. -/
def optStrTruthy : Option String → Bool
  | some s => !s.isEmpty
  | none => false

/-- The message of foreman_installation_medium.py line 122, built from the
keys left in `module_params` after `name` and `entity` were popped. -/
def wildcardAbsentMsg (ks : List String) : String :=
  "When deleting all installation media, there is no need to specify further parameters: "
    ++ toString ks ++ " "

/-- `len(v)` (the resolved `operatingsystems` value is a list). -/
def lenOf : Value → Nat
  | .vList l => l.length
  | .vStr s => s.length
  | .vDict d => d.length
  | _ => 0

/-- `module_params['operatingsystems'][0]['id']` on the resolved list. -/
def firstOsId : Value → Value
  | .vList (o :: _) => itemOfV o "id"
  | _ => .vNone

/-- One installation-medium invocation: parsed parameters, the separate
`updated_name` argument, desired state, and oracles for the helper
library's remote interface (spec section 6): the shallow media listing,
per-id full fetches, the failsafe find by name, reference resolution (which
receives the located entity), and the operating-system fetch used for the
family derivation. -/
structure MediumInput where
  params : Params
  updatedName : Option String
  state : String
  listMedia : List Params
  showMedium : Value → Params
  findMedium : Option Params
  resolveParams : Params → Option Params → Params
  showOperatingsystem : Value → Params

/-- Observable outcome of an installation-medium invocation: result, trace
of remote-facing steps, and the value of `module_params` when `main`
stopped. -/
structure MediumOutput where
  result : MediumOutcome
  calls : List MedCall
  finalParams : Params

/-- foreman_installation_medium.py `main` (lines 90-145), after argument
parsing, inside the API connection scope. -/
def mediumMain (inp : MediumInput) : MediumOutput :=
  let mp := inp.params
  let name := strParam mp "name"
  let absent := desiredAbsent inp.state
  let affectsMultiple := name == "*"
  -- lines 113-122: sanitize user input for 'name: *'
  if affectsMultiple && (inp.state == "present_with_defaults") then
    { result := .fatal "'state: present_with_defaults' and 'name: *' cannot be used together",
      calls := [], finalParams := mp }
  else if affectsMultiple && optStrTruthy inp.updatedName then
    { result := .fatal "updated_name not allowed if 'name: *'!",
      calls := [], finalParams := mp }
  else if affectsMultiple && absent && !(keysOf mp == ["name", "entity"]) then
    let leftover := eraseKey (eraseKey mp "name") "entity"
    { result := .fatal (wildcardAbsentMsg (keysOf leftover)),
      calls := [], finalParams := leftover }
  else if affectsMultiple then
    -- lines 124-130
    let shallow := inp.listMedia
    let entities := if !absent then shallow.map (fun e => inp.showMedium (itemOf e "id")) else shallow
    let showCalls := if !absent then shallow.map (fun e => MedCall.showMedium (itemOf e "id")) else []
    if entities.isEmpty then
      { result := .exitedNoChange, calls := [.listMedia] ++ showCalls, finalParams := mp }
    else
      -- lines 134-137: resolve with entity = None; the `not affects_multiple`
      -- conjunct at line 136 blocks the os_family derivation here
      let mp2 := if !absent then inp.resolveParams mp none else mp
      -- lines 143-145
      let mp3 := eraseKey mp2 "name"
      { result := .completed,
        calls := [.listMedia] ++ showCalls ++ entities.map (fun e => MedCall.ensureEntity mp3 (some e)),
        finalParams := mp3 }
  else
    -- line 132
    let entity := inp.findMedium
    -- lines 134-138
    let mp2 := if !absent then inp.resolveParams mp entity else mp
    if !absent && hasKey mp2 "operatingsystems" && (lenOf (itemOf mp2 "operatingsystems") == 1)
        && !hasKey mp2 "os_family" && entity.isNone then
      let osId := firstOsId (itemOf mp2 "operatingsystems")
      let mp3 := setKey mp2 "os_family" (itemOf (inp.showOperatingsystem osId) "family")
      { result := .completed,
        calls := [.findMedia name, .showOperatingsystem osId, .ensureEntity mp3 entity],
        finalParams := mp3 }
    else
      { result := .completed,
        calls := [.findMedia name, .ensureEntity mp2 entity],
        finalParams := mp2 }

/-! ## Concrete invocations used to exercise the theorems -/

/-- A wildcard absent deletion that also supplies a rename and a `path`. -/
def mediumGuardCexInput : MediumInput :=
  { params := [("name", .vStr "*"), ("entity", .vNone), ("path", .vStr "http://debian.org/mirror/")],
    updatedName := some "jessie",
    state := "absent",
    listMedia := [],
    showMedium := fun _ => [],
    findMedium := none,
    resolveParams := fun p _ => p,
    showOperatingsystem := fun _ => [] }

/-- A wildcard absent deletion supplying only `path` beyond the name. -/
def mediumGuardInput : MediumInput :=
  { params := [("name", .vStr "*"), ("entity", .vNone), ("path", .vStr "http://debian.org/mirror/")],
    updatedName := none,
    state := "absent",
    listMedia := [],
    showMedium := fun _ => [],
    findMedium := none,
    resolveParams := fun p _ => p,
    showOperatingsystem := fun _ => [] }

/-- A wildcard invocation in defaults-seeding mode. -/
def mediumDefaultsInput : MediumInput :=
  { params := [("name", .vStr "*"), ("entity", .vNone)],
    updatedName := none,
    state := "present_with_defaults",
    listMedia := [],
    showMedium := fun _ => [],
    findMedium := none,
    resolveParams := fun p _ => p,
    showOperatingsystem := fun _ => [] }

/-- A wildcard present invocation against an empty remote collection. -/
def mediumEmptyInput : MediumInput :=
  { params := [("name", .vStr "*"), ("entity", .vNone)],
    updatedName := none,
    state := "present",
    listMedia := [],
    showMedium := fun _ => [],
    findMedium := none,
    resolveParams := fun p _ => p,
    showOperatingsystem := fun _ => [] }

/-- A new medium with exactly one (resolved) operating system and no
explicit `os_family`; the remote lookup finds no existing medium. -/
def mediumDeriveInput : MediumInput :=
  { params := [("name", .vStr "wheezy"),
               ("operatingsystems", .vList [.vDict [("id", .vInt 7)]]),
               ("path", .vStr "http://debian.org/mirror/")],
    updatedName := none,
    state := "present",
    listMedia := [],
    showMedium := fun _ => [],
    findMedium := none,
    resolveParams := fun p _ => p,
    showOperatingsystem := fun _ => [("id", .vInt 7), ("family", .vStr "Debian")] }

/-- A build-mode host creation that explicitly sets `managed: false`. -/
def hostBuildInput : HostInput :=
  { params := [("name", .vStr "new.example.com"), ("build", .vBool true), ("managed", .vBool false)],
    state := "present",
    lookupOutcome := .ok (),
    runOutcome := .ok (some [("id", .vInt 1)]) }

/-- A host creation with interface records holding falsy values. -/
def hostNicInput : HostInput :=
  { params := [("name", .vStr "new.example.com"),
               ("interfaces_attributes", .vList
                 [.vDict [("mac", .vStr "AA:BB:CC:DD:EE:FF"), ("ip", .vStr ""), ("primary", .vBool true), ("virtual", .vBool false)],
                  .vDict [("ip", .vStr ""), ("attached_devices", .vList [])]])],
    state := "present",
    lookupOutcome := .ok (),
    runOutcome := .ok (some [("id", .vInt 1)]) }

/-- A host creation supplying an `owner`. -/
def hostOwnerInput : HostInput :=
  { params := [("name", .vStr "new.example.com"), ("owner", .vStr "admin")],
    state := "present",
    lookupOutcome := .ok (),
    runOutcome := .ok (some [("id", .vInt 1)]) }

/-- A host invocation with a non-FQDN name. -/
def hostShortNameInput : HostInput :=
  { params := [("name", .vStr "new_host")],
    state := "present",
    lookupOutcome := .ok (),
    runOutcome := .ok (some [("id", .vInt 1)]) }

/-- A host deletion that also supplies `puppetclasses` and other fields. -/
def hostAbsentInput : HostInput :=
  { params := [("name", .vStr "old.example.com"),
               ("mac", .vStr "AA:BB:CC:DD:EE:FF"),
               ("puppetclasses", .vList [.vStr "base"])],
    state := "absent",
    lookupOutcome := .ok (),
    runOutcome := .ok none }

/-! ## Dictionary lemmas -/

theorem lookupKey_setKey_ne (d : Params) (k k' : String) (v : Value)
    (h : k ≠ k') : lookupKey (setKey d k v) k' = lookupKey d k' := by
  induction d with
  | nil => simp [setKey, lookupKey, h]
  | cons kv rest ih =>
    obtain ⟨k₀, v₀⟩ := kv
    by_cases hk : k₀ = k
    case pos => subst hk; simp [setKey, lookupKey, h]
    case neg => simp [setKey, lookupKey, hk, ih]

theorem lookupKey_setKey_self (d : Params) (k : String) (v : Value) :
    lookupKey (setKey d k v) k = some v := by
  induction d with
  | nil => simp [setKey, lookupKey]
  | cons kv rest ih =>
    obtain ⟨k₀, v₀⟩ := kv
    by_cases hk : k₀ = k
    case pos => subst hk; simp [setKey, lookupKey]
    case neg => simp [setKey, lookupKey, hk, ih]

theorem lookupKey_eraseKey_ne (d : Params) (k k' : String)
    (h : k ≠ k') : lookupKey (eraseKey d k) k' = lookupKey d k' := by
  induction d with
  | nil => simp [eraseKey]
  | cons kv rest ih =>
    obtain ⟨k₀, v₀⟩ := kv
    by_cases hk : k₀ = k
    case pos => subst hk; simp [eraseKey, lookupKey, h, ih]
    case neg => simp [eraseKey, lookupKey, hk, ih]

theorem hasKey_setKey_ne (d : Params) (k k' : String) (v : Value)
    (h : k ≠ k') : hasKey (setKey d k v) k' = hasKey d k' := by
  simp [hasKey, lookupKey_setKey_ne d k k' v h]

theorem hasKey_eraseKey_ne (d : Params) (k k' : String)
    (h : k ≠ k') : hasKey (eraseKey d k) k' = hasKey d k' := by
  simp [hasKey, lookupKey_eraseKey_ne d k k' h]

theorem eraseKey_of_not_hasKey (d : Params) (k : String)
    (h : hasKey d k = false) : eraseKey d k = d := by
  induction d with
  | nil => simp [eraseKey]
  | cons kv rest ih =>
    obtain ⟨k₀, v₀⟩ := kv
    by_cases hk : k₀ = k
    case pos =>
      subst hk
      simp [hasKey, lookupKey] at h
    case neg =>
      simp [hasKey, lookupKey, hk] at h
      simp [eraseKey, hk, ih (by simp [hasKey, h])]

theorem mem_keysOf_eraseKey (d : Params) (k key : String)
    (hm : k ∈ keysOf d) (h : k ≠ key) : k ∈ keysOf (eraseKey d key) := by
  induction d with
  | nil => simp [keysOf] at hm
  | cons kv rest ih =>
    obtain ⟨k₀, v₀⟩ := kv
    by_cases hk : k₀ = key
    case pos =>
      subst hk
      simp [keysOf] at hm
      rcases hm with hm | hm
      · exact absurd hm h
      · simpa [eraseKey] using ih (by simpa [keysOf] using hm)
    case neg =>
      simp [keysOf] at hm
      rcases hm with hm | hm
      · simp [eraseKey, hk, keysOf, hm]
      · have := ih (by simpa [keysOf] using hm)
        simp [eraseKey, hk, keysOf] at this ⊢
        exact Or.inr this

/-! ## Normalization lemmas for the host module -/

theorem normalizeBuildManaged_fst_lookup (p : Params) (k : String)
    (h1 : k ≠ "managed") (h2 : k ≠ "build") :
    lookupKey (normalizeBuildManaged p).1 k = lookupKey p k := by
  rw [normalizeBuildManaged]
  split_ifs <;>
    simp [lookupKey_setKey_ne _ _ _ _ (Ne.symm h1), lookupKey_setKey_ne _ _ _ _ (Ne.symm h2)]

theorem normalizeMac_lookup (p : Params) (k : String)
    (h : k ≠ "mac") : lookupKey (normalizeMac p) k = lookupKey p k := by
  rw [normalizeMac]
  cases hl : lookupKey p "mac" <;>
    simp [lookupKey_setKey_ne _ _ _ _ (Ne.symm h)]

theorem normalizeOwnerType_lookup (p : Params) (k : String)
    (h : k ≠ "owner_type") : lookupKey (normalizeOwnerType p) k = lookupKey p k := by
  rw [normalizeOwnerType]
  split_ifs <;>
    simp [lookupKey_setKey_ne _ _ _ _ (Ne.symm h)]

theorem normalizeInterfaces_lookup (p : Params) (k : String)
    (h : k ≠ "interfaces_attributes") :
    lookupKey (normalizeInterfaces p) k = lookupKey p k := by
  rw [normalizeInterfaces]
  cases hl : lookupKey p "interfaces_attributes" <;>
    simp [lookupKey_setKey_ne _ _ _ _ (Ne.symm h)]

theorem hostNormalize_snd (p : Params) :
    (hostNormalize p).2 = (normalizeBuildManaged p).2 := rfl

theorem hostNormalize_lookup (p : Params) (k : String)
    (h1 : k ≠ "managed") (h2 : k ≠ "build") (h3 : k ≠ "mac")
    (h4 : k ≠ "owner_type") (h5 : k ≠ "interfaces_attributes") :
    lookupKey (hostNormalize p).1 k = lookupKey p k := by
  show lookupKey (normalizeInterfaces (normalizeOwnerType (normalizeMac (normalizeBuildManaged p).1))) k = _
  rw [normalizeInterfaces_lookup _ _ h5, normalizeOwnerType_lookup _ _ h4,
    normalizeMac_lookup _ _ h3, normalizeBuildManaged_fst_lookup _ _ h1 h2]

/-! ## Unfolding lemmas for `hostMain` -/

theorem hostMain_normalized (inp : HostInput)
    (hmx : (hasKey inp.params "owner" && hasKey inp.params "owner_group") = false)
    (hdot : containsChar (strParam inp.params "name") '.' = true)
    (habs : desiredAbsent inp.state = false) :
    (hostMain inp).paramsAfterNorm = some (hostNormalize inp.params).1 ∧
    (hostMain inp).warnings = (hostNormalize inp.params).2 := by
  rw [hostMain]
  simp only [hmx, hdot, habs, Bool.not_true, Bool.false_eq_true, if_false]
  cases inp.lookupOutcome with
  | error e => simp
  | ok u =>
    cases inp.runOutcome with
    | error e => simp
    | ok entity => simp

theorem hostMain_absent (inp : HostInput)
    (hmx : (hasKey inp.params "owner" && hasKey inp.params "owner_group") = false)
    (hdot : containsChar (strParam inp.params "name") '.' = true)
    (habs : desiredAbsent inp.state = true) :
    (hostMain inp).warnings = [] ∧
    (hostMain inp).paramsAfterNorm = some inp.params ∧
    (hostMain inp).paramsAtRun = some (eraseKey inp.params "puppetclasses") := by
  rw [hostMain]
  simp only [hmx, hdot, habs, Bool.not_true, Bool.false_eq_true, if_false, if_true]
  cases inp.runOutcome with
  | error e => simp
  | ok entity => simp

/-! ## Claim theorems for the host module -/

/-- C9: for every host invocation (that passes the argument parser's
mutual-exclusion validation), regardless of the desired terminal state, a
name containing no '.' makes the module fail with "The hostname must be
FQDN" before the API connection is acquired and before any remote call is
issued. -/
theorem host_fqdn_validation (inp : HostInput)
    (hmx : (hasKey inp.params "owner" && hasKey inp.params "owner_group") = false)
    (hdot : containsChar (strParam inp.params "name") '.' = false) :
    (hostMain inp).result = .fatal "The hostname must be FQDN" ∧
    (hostMain inp).connectionAcquired = false ∧
    (hostMain inp).calls = [] := by
  rw [hostMain]
  simp [hmx, hdot]

/-- Witness for C9: `name: new_host` with `state: present` fails the FQDN
check without acquiring the connection. -/
theorem host_fqdn_validation_witness :
    (hostMain hostShortNameInput).result = .fatal "The hostname must be FQDN" ∧
    (hostMain hostShortNameInput).connectionAcquired = false ∧
    (hostMain hostShortNameInput).calls = [] :=
  host_fqdn_validation hostShortNameInput (by decide) (by decide)

/-- C7: supplying both `owner` and `owner_group` fails validation (the
declared mutually-exclusive pair, enforced by the argument parser)
regardless of all other fields; and a non-absent invocation supplying
exactly one of them gets `owner_type` set to 'User' (for `owner`) or
'Usergroup' (for `owner_group`) by the normalization block. -/
theorem host_owner_rules (inp : HostInput) :
    (hasKey inp.params "owner" = true → hasKey inp.params "owner_group" = true →
      (hostMain inp).result = .fatal mutuallyExclusiveMsg ∧
      (hostMain inp).connectionAcquired = false ∧ (hostMain inp).calls = []) ∧
    (desiredAbsent inp.state = false →
      ∀ p, (hostMain inp).paramsAfterNorm = some p →
        (hasKey inp.params "owner" = true →
          lookupKey p "owner_type" = some (.vStr "User")) ∧
        (hasKey inp.params "owner" = false → hasKey inp.params "owner_group" = true →
          lookupKey p "owner_type" = some (.vStr "Usergroup"))) := by
  constructor
  · intro h1 h2
    rw [hostMain]
    simp [h1, h2]
  · intro habs p hp
    by_cases hmx : (hasKey inp.params "owner" && hasKey inp.params "owner_group") = true
    · rw [hostMain] at hp
      simp [hmx] at hp
    · have hmx' : (hasKey inp.params "owner" && hasKey inp.params "owner_group") = false := by
        simpa using hmx
      by_cases hdot : containsChar (strParam inp.params "name") '.' = true
      · have hnorm := (hostMain_normalized inp hmx' hdot habs).1
        rw [hnorm, Option.some_inj] at hp
        subst hp
        have hmid : ∀ k : String, k ≠ "managed" → k ≠ "build" → k ≠ "mac" →
            lookupKey (normalizeMac (normalizeBuildManaged inp.params).1) k =
              lookupKey inp.params k := by
          intro k hk1 hk2 hk3
          rw [normalizeMac_lookup _ _ hk3, normalizeBuildManaged_fst_lookup _ _ hk1 hk2]
        have hker : ∀ k : String, k ≠ "managed" → k ≠ "build" → k ≠ "mac" →
            hasKey (normalizeMac (normalizeBuildManaged inp.params).1) k =
              hasKey inp.params k := by
          intro k hk1 hk2 hk3
          simp [hasKey, hmid k hk1 hk2 hk3]
        constructor
        · intro ho
          show lookupKey (normalizeInterfaces (normalizeOwnerType
            (normalizeMac (normalizeBuildManaged inp.params).1))) "owner_type" = _
          rw [normalizeInterfaces_lookup _ _ (by decide), normalizeOwnerType]
          have h1 : hasKey (normalizeMac (normalizeBuildManaged inp.params).1) "owner" = true := by
            rw [hker "owner" (by decide) (by decide) (by decide)]; exact ho
          simp [h1, lookupKey_setKey_self]
        · intro ho hog
          show lookupKey (normalizeInterfaces (normalizeOwnerType
            (normalizeMac (normalizeBuildManaged inp.params).1))) "owner_type" = _
          rw [normalizeInterfaces_lookup _ _ (by decide), normalizeOwnerType]
          have h1 : hasKey (normalizeMac (normalizeBuildManaged inp.params).1) "owner" = false := by
            rw [hker "owner" (by decide) (by decide) (by decide)]; exact ho
          have h2 : hasKey (normalizeMac (normalizeBuildManaged inp.params).1) "owner_group" = true := by
            rw [hker "owner_group" (by decide) (by decide) (by decide)]; exact hog
          simp [h1, h2, lookupKey_setKey_self]
      · have hdot' : containsChar (strParam inp.params "name") '.' = false := by
          simpa using hdot
        rw [hostMain] at hp
        simp [hmx', hdot'] at hp

/-- Witness for C7: a present-state host supplying only `owner` has
`owner_type` normalized to 'User'. -/
theorem host_owner_rules_witness :
    lookupKey ((hostMain hostOwnerInput).paramsAfterNorm.getD []) "owner_type" =
      some (.vStr "User") := by
  have h := (host_owner_rules hostOwnerInput).2 (by decide)
    ((hostNormalize hostOwnerInput.params).1)
    ((hostMain_normalized hostOwnerInput (by decide) (by decide) (by decide)).1)
  have h2 := h.1 (by decide)
  rw [(hostMain_normalized hostOwnerInput (by decide) (by decide) (by decide)).1]
  exact h2

/-- C2: for a non-absent host invocation, `build: true` forces the
normalized `managed` to true regardless of its explicit value, with the
warning emitted exactly when the user explicitly supplied `managed: false`;
and when `build` is absent while `managed` is explicitly false, an explicit
`build: false` is injected. -/
theorem host_build_managed_coupling (inp : HostInput)
    (habs : desiredAbsent inp.state = false)
    (hmx : (hasKey inp.params "owner" && hasKey inp.params "owner_group") = false)
    (hdot : containsChar (strParam inp.params "name") '.' = true)
    (hmt : lookupKey inp.params "managed" = none ∨
      ∃ b, lookupKey inp.params "managed" = some (.vBool b)) :
    ∃ p, (hostMain inp).paramsAfterNorm = some p ∧
      (lookupKey inp.params "build" = some (.vBool true) →
        lookupKey p "managed" = some (.vBool true) ∧
        ((hostMain inp).warnings = [buildManagedWarning] ↔
          lookupKey inp.params "managed" = some (.vBool false))) ∧
      (hasKey inp.params "build" = false →
        lookupKey inp.params "managed" = some (.vBool false) →
        lookupKey p "build" = some (.vBool false)) := by
  obtain ⟨hnorm, hwarn⟩ := hostMain_normalized inp hmx hdot habs
  refine ⟨(hostNormalize inp.params).1, hnorm, ?_, ?_⟩
  · intro hb
    have hcond : (hasKey inp.params "build" && getTruthy inp.params "build") = true := by
      simp [hasKey, hb, getTruthy, Value.truthy]
    have hbm1 : (normalizeBuildManaged inp.params).1 =
        setKey inp.params "managed" (.vBool true) := by
      rw [normalizeBuildManaged]
      simp [hcond]
    have hbm2 : (normalizeBuildManaged inp.params).2 =
        (if hasKey inp.params "managed" && !getTruthy inp.params "managed"
          then [buildManagedWarning] else []) := by
      rw [normalizeBuildManaged]
      simp [hcond]
    constructor
    · show lookupKey (normalizeInterfaces (normalizeOwnerType
        (normalizeMac (normalizeBuildManaged inp.params).1))) "managed" = _
      rw [normalizeInterfaces_lookup _ _ (by decide), normalizeOwnerType_lookup _ _ (by decide),
        normalizeMac_lookup _ _ (by decide), hbm1, lookupKey_setKey_self]
    · rw [hwarn, hostNormalize_snd, hbm2]
      rcases hmt with hmt | ⟨b, hmt⟩
      · simp [hasKey, hmt]
      · cases b
        case false => simp [hasKey, hmt, getTruthy, Value.truthy]
        case true =>
          simp [hasKey, hmt, getTruthy, Value.truthy]
  · intro hbf hm
    have hcond1 : (hasKey inp.params "build" && getTruthy inp.params "build") = false := by
      simp [hbf]
    have hbn : lookupKey inp.params "build" = none := by
      cases h : lookupKey inp.params "build" with
      | none => rfl
      | some v => rw [hasKey, h] at hbf; simp at hbf
    have hcond2 : (!hasKey inp.params "build"
        && (hasKey inp.params "managed" && !getTruthy inp.params "managed")) = true := by
      simp [hasKey, hbn, hm, getTruthy, Value.truthy]
    have hbm1 : (normalizeBuildManaged inp.params).1 =
        setKey inp.params "build" (.vBool false) := by
      rw [normalizeBuildManaged]
      simp [hcond1, hcond2]
    show lookupKey (normalizeInterfaces (normalizeOwnerType
      (normalizeMac (normalizeBuildManaged inp.params).1))) "build" = _
    rw [normalizeInterfaces_lookup _ _ (by decide), normalizeOwnerType_lookup _ _ (by decide),
      normalizeMac_lookup _ _ (by decide), hbm1, lookupKey_setKey_self]

/-- Witness for C2: `build: true` with an explicit `managed: false` ends up
`managed: true` and produces the warning. -/
theorem host_build_managed_coupling_witness :
    ∃ p, (hostMain hostBuildInput).paramsAfterNorm = some p ∧
      (lookupKey hostBuildInput.params "build" = some (.vBool true) →
        lookupKey p "managed" = some (.vBool true) ∧
        ((hostMain hostBuildInput).warnings = [buildManagedWarning] ↔
          lookupKey hostBuildInput.params "managed" = some (.vBool false))) ∧
      (hasKey hostBuildInput.params "build" = false →
        lookupKey hostBuildInput.params "managed" = some (.vBool false) →
        lookupKey p "build" = some (.vBool false)) :=
  host_build_managed_coupling hostBuildInput (by decide) (by decide) (by decide)
    (Or.inr ⟨false, rfl⟩)

/-- C4: for a non-absent host invocation supplying
`interfaces_attributes`, the normalized value is exactly the pruned list:
every key with a falsy value is dropped from each interface record (and a
record with only falsy values disappears), so a record carrying an
explicitly empty value is indistinguishable from one where the key was
never set. -/
theorem host_interfaces_pruning (inp : HostInput)
    (habs : desiredAbsent inp.state = false)
    (hmx : (hasKey inp.params "owner" && hasKey inp.params "owner_group") = false)
    (hdot : containsChar (strParam inp.params "name") '.' = true)
    (objs : List Value)
    (hia : lookupKey inp.params "interfaces_attributes" = some (.vList objs)) :
    ∃ p, (hostMain inp).paramsAfterNorm = some p ∧
      lookupKey p "interfaces_attributes" =
        some (.vList ((objs.map cleanNic).filter Value.truthy)) ∧
      (∀ d, Value.vDict d ∈ (objs.map cleanNic).filter Value.truthy →
        ∀ kv ∈ d, kv.2.truthy = true) ∧
      (∀ (k : String) (v : Value) (d : List (String × Value)), v.truthy = false →
        cleanNic (.vDict ((k, v) :: d)) = cleanNic (.vDict d)) := by
  obtain ⟨hnorm, -⟩ := hostMain_normalized inp hmx hdot habs
  refine ⟨(hostNormalize inp.params).1, hnorm, ?_, ?_, ?_⟩
  · show lookupKey (normalizeInterfaces (normalizeOwnerType
      (normalizeMac (normalizeBuildManaged inp.params).1))) "interfaces_attributes" = _
    have hx : lookupKey (normalizeOwnerType (normalizeMac
        (normalizeBuildManaged inp.params).1)) "interfaces_attributes" =
        some (.vList objs) := by
      rw [normalizeOwnerType_lookup _ _ (by decide), normalizeMac_lookup _ _ (by decide),
        normalizeBuildManaged_fst_lookup _ _ (by decide) (by decide), hia]
    rw [normalizeInterfaces, hx]
    simp [filterInterfaces, lookupKey_setKey_self]
  · intro d hd kv hkv
    rcases List.mem_filter.mp hd with ⟨hmem, -⟩
    rcases List.mem_map.mp hmem with ⟨x, -, hcx⟩
    cases x with
    | vDict d0 =>
      rw [cleanNic] at hcx
      have hdd : cleanNicDict d0 = d := by
        injection hcx
      rw [← hdd] at hkv
      exact (List.mem_filter.mp hkv).2
    | vStr s => simp [cleanNic] at hcx
    | vBool b => simp [cleanNic] at hcx
    | vInt n => simp [cleanNic] at hcx
    | vNone => simp [cleanNic] at hcx
    | vList l => simp [cleanNic] at hcx
  · intro k v d hv
    simp [cleanNic, cleanNicDict, List.filter_cons, hv]

/-- Witness for C4: two interface records with falsy `ip`, `virtual` and
`attached_devices` values are pruned; the second record vanishes
entirely. -/
theorem host_interfaces_pruning_witness :
    ∃ p, (hostMain hostNicInput).paramsAfterNorm = some p ∧
      lookupKey p "interfaces_attributes" =
        some (.vList ((([.vDict [("mac", .vStr "AA:BB:CC:DD:EE:FF"), ("ip", .vStr ""), ("primary", .vBool true), ("virtual", .vBool false)],
          .vDict [("ip", .vStr ""), ("attached_devices", .vList [])]] : List Value).map cleanNic).filter Value.truthy)) ∧
      (∀ d, Value.vDict d ∈ (([.vDict [("mac", .vStr "AA:BB:CC:DD:EE:FF"), ("ip", .vStr ""), ("primary", .vBool true), ("virtual", .vBool false)],
          .vDict [("ip", .vStr ""), ("attached_devices", .vList [])]] : List Value).map cleanNic).filter Value.truthy →
        ∀ kv ∈ d, kv.2.truthy = true) ∧
      (∀ (k : String) (v : Value) (d : List (String × Value)), v.truthy = false →
        cleanNic (.vDict ((k, v) :: d)) = cleanNic (.vDict d)) :=
  host_interfaces_pruning hostNicInput (by decide) (by decide) (by decide) _ rfl

/-- C8: `ensure_puppetclasses` is invoked iff the desired state is not
absent, `module.run` completed successfully, and the resolved entity body
contains `environment_id`; in particular it never runs for an absent
state. -/
theorem host_puppetclass_hook (inp : HostInput) :
    (HostCall.ensurePuppetclasses ∈ (hostMain inp).calls ↔
      desiredAbsent inp.state = false ∧ (hostMain inp).result = .success ∧
        ∃ body, inp.runOutcome = .ok (some body) ∧ hasKey body "environment_id" = true) ∧
    (desiredAbsent inp.state = true →
      HostCall.ensurePuppetclasses ∉ (hostMain inp).calls) := by
  have hmain : HostCall.ensurePuppetclasses ∈ (hostMain inp).calls ↔
      desiredAbsent inp.state = false ∧ (hostMain inp).result = .success ∧
        ∃ body, inp.runOutcome = .ok (some body) ∧ hasKey body "environment_id" = true := by
    rw [hostMain]
    by_cases h1 : (hasKey inp.params "owner" && hasKey inp.params "owner_group") = true
    · simp [h1]
    · rw [Bool.not_eq_true] at h1
      simp only [h1, Bool.false_eq_true, if_false]
      by_cases h2 : containsChar (strParam inp.params "name") '.' = true
      on_goal 2 =>
        rw [Bool.not_eq_true] at h2
        simp [h2]
      simp only [h2, Bool.not_true, Bool.false_eq_true, if_false]
      by_cases habs : desiredAbsent inp.state = true
      · simp only [habs, if_true]
        cases inp.runOutcome with
        | error e => simp [habs]
        | ok entity => simp [habs]
      · rw [Bool.not_eq_true] at habs
        simp only [habs, if_false, Bool.false_eq_true]
        cases inp.lookupOutcome with
        | error e => simp [habs]
        | ok u =>
          cases hr : inp.runOutcome with
          | error e => simp [habs, hr]
          | ok entity =>
            cases entity with
            | none => simp [habs, hr]
            | some body =>
              by_cases he : hasKey body "environment_id" = true
              · simp [habs, hr, he]
              · rw [Bool.not_eq_true] at he
                simp [habs, hr, he]
  refine ⟨hmain, fun habs hmem => ?_⟩
  rcases hmain.mp hmem with ⟨hf, -⟩
  rw [habs] at hf
  exact Bool.noConfusion hf

/-- Witness for C8, instantiated at a concrete absent-state deletion: the
hook step does not appear in the trace. -/
theorem host_puppetclass_hook_witness :
    HostCall.ensurePuppetclasses ∉ (hostMain hostAbsentInput).calls :=
  (host_puppetclass_hook hostAbsentInput).2 (by decide)

/-- Counterexample to C10 as stated: in an absent-state invocation that
supplies `puppetclasses`, the parameters do not reach `module.run`
unchanged — line 455 pops the `puppetclasses` key unconditionally, before
the state is consulted. -/
theorem host_absent_untouched_cex :
    (hostMain hostAbsentInput).paramsAtRun ≠ some hostAbsentInput.params := by
  intro h
  have h2 := congrArg
    (fun o : Option Params => o.map (fun d => hasKey d "puppetclasses")) h
  revert h2
  decide

/-- C10 as amended: an absent-state host invocation skips the whole
normalization block (no build/managed coupling, no mac lower-casing, no
owner_type derivation, no interface pruning, no warnings), and the
parameters reach `module.run` unchanged except for the unconditional
extraction of the `puppetclasses` key; when `puppetclasses` was not
supplied they are exactly the input parameters. -/
theorem host_absent_no_normalization (inp : HostInput)
    (habs : desiredAbsent inp.state = true)
    (hmx : (hasKey inp.params "owner" && hasKey inp.params "owner_group") = false)
    (hdot : containsChar (strParam inp.params "name") '.' = true) :
    (hostMain inp).warnings = [] ∧
    (hostMain inp).paramsAfterNorm = some inp.params ∧
    (hostMain inp).paramsAtRun = some (eraseKey inp.params "puppetclasses") ∧
    (hasKey inp.params "puppetclasses" = false →
      (hostMain inp).paramsAtRun = some inp.params) := by
  obtain ⟨h1, h2, h3⟩ := hostMain_absent inp hmx hdot habs
  refine ⟨h1, h2, h3, fun hpc => ?_⟩
  rw [h3, eraseKey_of_not_hasKey inp.params "puppetclasses" hpc]

/-- Witness for the amended C10: a concrete deletion supplying `mac` and
`puppetclasses` reaches `module.run` with only `puppetclasses` removed and
the `mac` value untouched (not lower-cased). -/
theorem host_absent_no_normalization_witness :
    (hostMain hostAbsentInput).warnings = [] ∧
    (hostMain hostAbsentInput).paramsAfterNorm = some hostAbsentInput.params ∧
    (hostMain hostAbsentInput).paramsAtRun =
      some (eraseKey hostAbsentInput.params "puppetclasses") ∧
    (hasKey hostAbsentInput.params "puppetclasses" = false →
      (hostMain hostAbsentInput).paramsAtRun = some hostAbsentInput.params) :=
  host_absent_no_normalization hostAbsentInput (by decide) (by decide) (by decide)

/-! ## Claim theorems for the installation medium module -/

/-- C5: a wildcard installation-medium invocation in
`present_with_defaults` mode, or one accompanied by a truthy
`updated_name`, fails with a descriptive fatal message before any remote
list/show/create/update/delete call. -/
theorem medium_wildcard_validation (inp : MediumInput)
    (hname : strParam inp.params "name" = "*")
    (h : inp.state = "present_with_defaults" ∨ optStrTruthy inp.updatedName = true) :
    ∃ msg, (mediumMain inp).result = .fatal msg ∧ (mediumMain inp).calls = [] ∧
      (msg = "'state: present_with_defaults' and 'name: *' cannot be used together" ∨
        msg = "updated_name not allowed if 'name: *'!") := by
  by_cases hpwd : inp.state = "present_with_defaults"
  · exact ⟨_, by rw [mediumMain]; simp [hname, hpwd],
      by rw [mediumMain]; simp [hname, hpwd], Or.inl rfl⟩
  · rcases h with h | h
    · exact absurd h hpwd
    · exact ⟨_, by rw [mediumMain]; simp [hname, hpwd, h],
        by rw [mediumMain]; simp [hname, hpwd, h], Or.inr rfl⟩

/-- Witness for C5: `name: *` with `state: present_with_defaults` fails
without any remote call. -/
theorem medium_wildcard_validation_witness :
    ∃ msg, (mediumMain mediumDefaultsInput).result = .fatal msg ∧
      (mediumMain mediumDefaultsInput).calls = [] ∧
      (msg = "'state: present_with_defaults' and 'name: *' cannot be used together" ∨
        msg = "updated_name not allowed if 'name: *'!") :=
  medium_wildcard_validation mediumDefaultsInput rfl (Or.inl rfl)

/-- C6: a wildcard invocation (passing the wildcard validation) against an
empty remote collection exits as a no-change success with no remote call
beyond the initial listing. -/
theorem medium_wildcard_fast_exit (inp : MediumInput)
    (hname : strParam inp.params "name" = "*")
    (hpwd : inp.state ≠ "present_with_defaults")
    (hupd : optStrTruthy inp.updatedName = false)
    (hkeys : desiredAbsent inp.state = true → keysOf inp.params = ["name", "entity"])
    (hempty : inp.listMedia = []) :
    (mediumMain inp).result = .exitedNoChange ∧
    (mediumMain inp).calls = [MedCall.listMedia] := by
  by_cases habs : desiredAbsent inp.state = true
  · constructor <;>
      · rw [mediumMain]
        simp [hname, hpwd, hupd, habs, hkeys habs, hempty]
  · rw [Bool.not_eq_true] at habs
    constructor <;>
      · rw [mediumMain]
        simp [hname, hpwd, hupd, habs, hempty]

/-- Witness for C6: a wildcard present invocation over an empty collection
exits with no change after the single listing call. -/
theorem medium_wildcard_fast_exit_witness :
    (mediumMain mediumEmptyInput).result = .exitedNoChange ∧
    (mediumMain mediumEmptyInput).calls = [MedCall.listMedia] :=
  medium_wildcard_fast_exit mediumEmptyInput rfl (by decide) rfl
    (fun hc => absurd hc (by decide)) rfl

/-- Counterexample to C1 as stated: a wildcard absent invocation that also
supplies a truthy `updated_name` and a `path` fails on the earlier rename
guard (line 117), whose message does not enumerate the offending `path`
parameter. -/
theorem medium_wildcard_guard_cex :
    (mediumMain mediumGuardCexInput).result =
      .fatal "updated_name not allowed if 'name: *'!" ∧
    (mediumMain mediumGuardCexInput).calls = [] ∧
    "path" ∈ keysOf mediumGuardCexInput.params ∧
    ¬ "path".data <:+: "updated_name not allowed if 'name: *'!".data :=
  ⟨rfl, rfl, by decide, by decide⟩

/-- C1 as amended: a wildcard absent invocation with no truthy
`updated_name` (that case fails earlier with the rename-specific message)
and any parameter beyond `name` (and the internal `entity` key) fails
before any remote call, with a message enumerating exactly the keys left
after `name` and `entity` are popped — in particular every offending
supplied key. -/
theorem medium_wildcard_absent_guard (inp : MediumInput)
    (hname : strParam inp.params "name" = "*")
    (habs : inp.state = "absent")
    (hupd : optStrTruthy inp.updatedName = false)
    (k : String) (hk : k ∈ keysOf inp.params) (hk1 : k ≠ "name") (hk2 : k ≠ "entity") :
    (mediumMain inp).result =
      .fatal (wildcardAbsentMsg (keysOf (eraseKey (eraseKey inp.params "name") "entity"))) ∧
    (mediumMain inp).calls = [] ∧
    k ∈ keysOf (eraseKey (eraseKey inp.params "name") "entity") := by
  have hne : (keysOf inp.params == ["name", "entity"]) = false := by
    rw [beq_eq_false_iff_ne]
    intro he
    rw [he] at hk
    simp only [List.mem_cons, List.not_mem_nil, or_false] at hk
    rcases hk with hk | hk
    · exact hk1 hk
    · exact hk2 hk
  refine ⟨?_, ?_,
    mem_keysOf_eraseKey _ k "entity" (mem_keysOf_eraseKey _ k "name" hk hk1) hk2⟩ <;>
    · rw [mediumMain]
      simp [hname, habs, hupd, hne, desiredAbsent]

/-- Witness for the amended C1: deleting all media while also supplying
`path` fails with the message listing the leftover `path` key. -/
theorem medium_wildcard_absent_guard_witness :
    (mediumMain mediumGuardInput).result =
      .fatal (wildcardAbsentMsg
        (keysOf (eraseKey (eraseKey mediumGuardInput.params "name") "entity"))) ∧
    (mediumMain mediumGuardInput).calls = [] ∧
    "path" ∈ keysOf (eraseKey (eraseKey mediumGuardInput.params "name") "entity") :=
  medium_wildcard_absent_guard mediumGuardInput rfl rfl rfl "path"
    (by decide) (by decide) (by decide)

/-- C3: in a non-absent invocation whose resolved `operatingsystems` list
has exactly one member while `os_family` was not supplied, `os_family` is
set — to the `family` attribute fetched from that operating system — if and
only if no matching remote entity exists (exact-name lookup found nothing);
under a wildcard, or when the lookup found an entity, `os_family` is left
untouched. -/
theorem medium_os_family_derivation (inp : MediumInput) (o : Value)
    (habs : desiredAbsent inp.state = false)
    (hmp : hasKey inp.params "os_family" = false)
    (hres : ∀ ent, hasKey (inp.resolveParams inp.params ent) "os_family" = false)
    (hos : lookupKey (inp.resolveParams inp.params inp.findMedium) "operatingsystems" =
      some (.vList [o])) :
    (hasKey (mediumMain inp).finalParams "os_family" = true ↔
      (strParam inp.params "name" ≠ "*" ∧ inp.findMedium = none)) ∧
    (strParam inp.params "name" ≠ "*" → inp.findMedium = none →
      lookupKey (mediumMain inp).finalParams "os_family" =
        some (itemOf (inp.showOperatingsystem (itemOfV o "id")) "family") ∧
      MedCall.showOperatingsystem (itemOfV o "id") ∈ (mediumMain inp).calls) := by
  by_cases hw : strParam inp.params "name" = "*"
  · have hfp : hasKey (mediumMain inp).finalParams "os_family" = false := by
      rw [mediumMain]
      by_cases hpwd : (inp.state == "present_with_defaults") = true
      · simp [hw, hpwd, hmp]
      · rw [Bool.not_eq_true] at hpwd
        by_cases hupd : optStrTruthy inp.updatedName = true
        · simp [hw, hpwd, hupd, hmp]
        · rw [Bool.not_eq_true] at hupd
          by_cases hemp :
            (inp.listMedia.map (fun e => inp.showMedium (itemOf e "id"))).isEmpty = true
          · simp [hw, hpwd, hupd, habs, hemp, hmp]
          · rw [Bool.not_eq_true] at hemp
            simp [hw, hpwd, hupd, habs, hemp, hmp,
              hasKey_eraseKey_ne _ "name" "os_family" (by decide), hres none]
    exact ⟨by simp [hfp, hw], fun hnw => absurd hw hnw⟩
  · have hbeq : (strParam inp.params "name" == "*") = false :=
      beq_eq_false_iff_ne.mpr hw
    cases hf : inp.findMedium with
    | some e =>
      have hout : mediumMain inp =
          { result := .completed,
            calls := [MedCall.findMedia (strParam inp.params "name"),
              MedCall.ensureEntity (inp.resolveParams inp.params (some e)) (some e)],
            finalParams := inp.resolveParams inp.params (some e) } := by
        rw [mediumMain]
        simp [hbeq, habs, hf]
      refine ⟨?_, fun hnw hnone => ?_⟩
      · rw [hout]
        simp [hres (some e), hf]
      · exact Option.noConfusion hnone
    | none =>
      rw [hf] at hos
      have hosf : (lookupKey (inp.resolveParams inp.params none) "os_family").isSome = false :=
        hres none
      have hout : mediumMain inp =
          { result := .completed,
            calls := [MedCall.findMedia (strParam inp.params "name"),
              MedCall.showOperatingsystem (itemOfV o "id"),
              MedCall.ensureEntity (setKey (inp.resolveParams inp.params none) "os_family"
                (itemOf (inp.showOperatingsystem (itemOfV o "id")) "family")) none],
            finalParams := setKey (inp.resolveParams inp.params none) "os_family"
              (itemOf (inp.showOperatingsystem (itemOfV o "id")) "family") } := by
        rw [mediumMain]
        simp [hbeq, habs, hf, hasKey, hos, itemOf, lenOf, hosf, firstOsId]
      refine ⟨?_, fun hnw hnone => ?_⟩
      · rw [hout]
        simp [hasKey, lookupKey_setKey_self, hw]
      · rw [hout]
        simp [lookupKey_setKey_self]

/-- Witness for C3: a new medium (no remote match) with one resolved
operating system id 7 gets `os_family: Debian` fetched from it. -/
theorem medium_os_family_derivation_witness :
    (hasKey (mediumMain mediumDeriveInput).finalParams "os_family" = true ↔
      (strParam mediumDeriveInput.params "name" ≠ "*" ∧ mediumDeriveInput.findMedium = none)) ∧
    (strParam mediumDeriveInput.params "name" ≠ "*" → mediumDeriveInput.findMedium = none →
      lookupKey (mediumMain mediumDeriveInput).finalParams "os_family" =
        some (itemOf (mediumDeriveInput.showOperatingsystem
          (itemOfV (.vDict [("id", .vInt 7)]) "id")) "family") ∧
      MedCall.showOperatingsystem (itemOfV (.vDict [("id", .vInt 7)]) "id") ∈
        (mediumMain mediumDeriveInput).calls) :=
  medium_os_family_derivation mediumDeriveInput (.vDict [("id", .vInt 7)])
    (by decide) (by decide) (fun ent => rfl) rfl

end Foreman
